import Mathlib

/-!
# Verification of the excel_parser core (reader, writer, binary codec)

Shallow embedding of the Rust sources under `src/rust/src/`:

* `parser.rs` — the canonical data model (`CellData`, `RowData`, `SheetData`,
  `ExcelData`) and the read pipeline (`read_headers`, `read_data`, `read_sheet`).
* `writer.rs` — the write pipeline (`write_data`, `create_format_from_string`,
  `write_multiple_sheets`), modelled as the trace of operations issued to the
  external `rust_xlsxwriter` workbook.
* `messagepack_converter.rs` — the structural encode/decode contract, modelled
  at the level of MessagePack values (the byte-level `rmp_serde` map/array codec
  is a trusted external primitive per the specification).

External collaborators (the `calamine` workbook codec, the `rust_xlsxwriter`
workbook codec, the `rmp_serde` byte codec) are abstracted: a worksheet range is
a list of rows of source cells together with the width the codec reports, the
cell-to-string conversion (`calamine`'s `Display`) is an arbitrary function
`toStr : α → String`, and the writer's output is a trace of the calls made to
the workbook object, of which only `save` touches the target file.
-/

namespace ExcelParserModel

/-! ## Data model (`parser.rs`, struct declarations) -/

/-- `CellData` from `parser.rs`: one cell, addressed by the header string of its
column, with the cell value already converted to its string representation. -/
structure CellData where
  column_name : String
  value : String
deriving DecidableEq, Repr

/-- `RowData` from `parser.rs`: an ordered list of cells plus the 1-based data
row index (`u32` in the source, modelled as `Nat`). -/
structure RowData where
  cells : List CellData
  row_index : Nat
deriving DecidableEq, Repr

/-- `SheetData` from `parser.rs`. `total_rows` and `total_columns` are `u32` in
the source, modelled as `Nat`. -/
structure SheetData where
  name : String
  column_names : List String
  rows : List RowData
  total_rows : Nat
  total_columns : Nat
deriving DecidableEq, Repr

/-- `ExcelData` from `parser.rs`: the whole workbook read result. -/
structure ExcelData where
  sheets : List SheetData
deriving DecidableEq, Repr

/-! ## The external workbook as seen by the reader

`calamine`'s `Xlsx` workbook is abstracted to the data the reader extracts from
it: an ordered list of worksheets, each a name together with its cell range.
`Range.rows` is what `range.rows()` iterates and `Range.width` is what
`range.width()` reports; both are produced by the external codec. Source cells
have an arbitrary type `α` with an arbitrary string conversion `toStr`
(`calamine`'s `Display` implementation for `Data`). -/

/-- A worksheet range as reported by the external codec: the rows of source
cells and the grid width. -/
structure Range (α : Type) where
  rows : List (List α)
  width : Nat
deriving DecidableEq

/-- An opened workbook: worksheets in source order, each with a name. -/
structure Xlsx (α : Type) where
  sheets : List (String × Range α)
deriving DecidableEq

/-- `workbook.sheet_names()`. -/
def Xlsx.sheet_names (wb : Xlsx α) : List String :=
  wb.sheets.map Prod.fst

/-- `workbook.worksheet_range(name)`: the range of the first worksheet with the
given name, or failure when no worksheet has that name. -/
def Xlsx.worksheet_range (wb : Xlsx α) (name : String) : Option (Range α) :=
  (wb.sheets.find? (fun p => p.1 == name)).map Prod.snd

/-! ## Reader (`ExcelParser` in `parser.rs`) -/

/-- The header list of a range: the first row with each cell converted to its
string form, or the empty list when the range has no rows.  This is the
`rows_iter.next().map(...).unwrap_or_default()` step shared by `read_headers`
and `read_sheet`. -/
def headersOf (toStr : α → String) (range : Range α) : List String :=
  match range.rows with
  | [] => []
  | row :: _ => row.map toStr

/-- The body of `read_sheet` after the `worksheet_range` call succeeded
(`parser.rs` lines 51–87): take the first row as headers, then for every
subsequent row build a cell only for the column positions that have a header
entry, numbering data rows from 1. -/
def read_range (toStr : α → String) (sheet_name : String) (range : Range α) :
    SheetData :=
  let headers := headersOf toStr range
  let rows := range.rows.tail.enum.map (fun p =>
    { cells := p.2.enum.filterMap (fun q =>
        (headers[q.1]?).map (fun header =>
          { column_name := header, value := toStr q.2 : CellData }))
      row_index := p.1 + 1 : RowData })
  { name := sheet_name
    column_names := headers
    rows := rows
    total_rows := rows.length
    total_columns := range.width }

/-- `read_sheet` from `parser.rs`: look up the worksheet range by name (the `?`
on `worksheet_range`), then convert it. -/
def read_sheet (toStr : α → String) (wb : Xlsx α) (sheet_name : String) :
    Except String SheetData :=
  match wb.worksheet_range sheet_name with
  | some range => .ok (read_range toStr sheet_name range)
  | none => .error "worksheet range error"

/-- `read_headers` from `parser.rs`: fail with the no-worksheets error when the
workbook has no sheets, otherwise return the stringified first row of the first
sheet (empty when that sheet has no rows). -/
def read_headers (toStr : α → String) (wb : Xlsx α) :
    Except String (List String) :=
  match wb.sheet_names with
  | [] => .error "No worksheets found"
  | first :: _ =>
    match wb.worksheet_range first with
    | some range => .ok (headersOf toStr range)
    | none => .error "worksheet range error"

/-- `read_data` from `parser.rs`: read every sheet in source order; a single
sheet's failure aborts the whole call. -/
def read_data (toStr : α → String) (wb : Xlsx α) : Except String ExcelData :=
  (wb.sheet_names.mapM (read_sheet toStr wb)).map ExcelData.mk

/-! ## Writer (`ExcelWriter` in `writer.rs`)

The `rust_xlsxwriter` workbook is an external resource; the writer is modelled
by the trace of calls it issues to the workbook/worksheet objects.  Column
widths are `f64` in the source; they are only carried through (never computed
with), so they are modelled as `ℚ`.  Of all the calls, only `save` touches the
target file — the codec builds the workbook in memory and persists solely on
the explicit save. -/

/-- `FormatAlign` from `rust_xlsxwriter` (only `Center` is used). -/
inductive FormatAlign where
  | Center
deriving DecidableEq, Repr

/-- `Format` from `rust_xlsxwriter`, restricted to the properties the writer
sets: bold, alignment, background color, and the number-format string. -/
structure Format where
  bold : Bool := false
  align : Option FormatAlign := none
  background_color : Option Nat := none
  num_format : Option String := none
deriving DecidableEq, Repr

/-- `Format::new()`. -/
def Format.new : Format := {}

/-- `Format::set_bold`. -/
def Format.set_bold (f : Format) : Format := { f with bold := true }

/-- `Format::set_align`. -/
def Format.set_align (f : Format) (a : FormatAlign) : Format :=
  { f with align := some a }

/-- `Format::set_background_color`. -/
def Format.set_background_color (f : Format) (c : Nat) : Format :=
  { f with background_color := some c }

/-- `Format::set_num_format`. -/
def Format.set_num_format (f : Format) (s : String) : Format :=
  { f with num_format := some s }

/-- `HeaderConfig` from `writer.rs`. -/
structure HeaderConfig where
  name : String
  width : Option Rat
  format : Option String
deriving DecidableEq

/-- `WriteConfig` from `writer.rs`. -/
structure WriteConfig where
  sheet_name : String
  headers : List HeaderConfig
  data : List (List String)
deriving DecidableEq

/-- One call issued to the `rust_xlsxwriter` workbook or worksheet.  `row` is
`u32` and `col` is `u16` in the source, modelled as `Nat`.  Only `save`
persists anything to the target file. -/
inductive Action where
  | set_name (name : String)
  | write_with_format (row : Nat) (col : Nat) (value : String) (format : Format)
  | set_column_width (col : Nat) (width : Rat)
  | write (row : Nat) (col : Nat) (value : String)
  | save (path : String)
deriving DecidableEq

/-- `create_format_from_string` from `writer.rs`: the fixed five-token lookup;
every other string is passed through verbatim via `set_num_format`.  The Rust
function returns `Result` but every branch is `Ok`. -/
def create_format_from_string (format_str : String) : Except String Format :=
  let format := Format.new
  let format :=
    match format_str with
    | "@" => format.set_num_format "@"
    | "#,##0" => format.set_num_format "#,##0"
    | "#,##0.00" => format.set_num_format "#,##0.00"
    | "yyyy-MM-dd" => format.set_num_format "yyyy-mm-dd"
    | "yyyy-MM-dd HH:mm:ss" => format.set_num_format "yyyy-mm-dd hh:mm:ss"
    | _ => format.set_num_format format_str
  .ok format

/-- The fixed header style of `writer.rs`: bold, centered, light-gray
background (`0xD3D3D3`). -/
def header_style : Format :=
  ((Format.new.set_bold).set_align FormatAlign.Center).set_background_color 0xD3D3D3

/-- The header-writing loop shared verbatim by `write_data` and
`write_multiple_sheets`: per header, a formatted write at row 0 and, when a
width is present, a `set_column_width` call. -/
def header_actions (headers : List HeaderConfig) : List Action :=
  (headers.enum.map (fun p =>
    Action.write_with_format 0 p.1 p.2.name header_style ::
      (match p.2.width with
       | some w => [Action.set_column_width p.1 w]
       | none => []))).flatten

/-- One data-cell write of `write_data` (`writer.rs` lines 55–71): when the
column index has a header entry carrying a format string, resolve the format
(the `?` on `create_format_from_string`) and write formatted; otherwise write
plain.  Data rows are written starting at row `row_idx + 1`. -/
def data_cell_action (headers : List HeaderConfig) (row_idx col_idx : Nat)
    (cell_value : String) : Except String Action :=
  match (headers[col_idx]?).bind (fun h => h.format) with
  | some format_str =>
    (create_format_from_string format_str).map (fun cell_format =>
      Action.write_with_format (row_idx + 1) col_idx cell_value cell_format)
  | none => .ok (Action.write (row_idx + 1) col_idx cell_value)

/-- The data-writing loop of `write_data`. -/
def data_actions (headers : List HeaderConfig) (data : List (List String)) :
    Except String (List Action) :=
  (data.enum.mapM (fun (p : Nat × List String) =>
    p.2.enum.mapM (fun (q : Nat × String) =>
      data_cell_action headers p.1 q.1 q.2))).map List.flatten

/-- `write_data` from `writer.rs`, as the trace of workbook calls.  `name_ok`
abstracts the external codec's sheet-name validation (`worksheet.set_name`),
given the names already assigned in this workbook (none, for a fresh single
sheet workbook).  On success the trace ends with the one `save` call. -/
def write_data (name_ok : List String → String → Bool) (path : String)
    (config : WriteConfig) : Except String (List Action) :=
  if name_ok [] config.sheet_name then
    (data_actions config.headers config.data).map (fun dataActs =>
      Action.set_name config.sheet_name :: header_actions config.headers ++
        dataActs ++ [Action.save path])
  else .error "invalid sheet name"

/-- The data-writing loop of `write_multiple_sheets` (`writer.rs` lines
137–146): every cell is written with the plain `write` call, with no format
lookup. -/
def multi_data_actions (data : List (List String)) : List Action :=
  (data.enum.map (fun p =>
    p.2.enum.map (fun q =>
      Action.write (p.1 + 1) q.1 q.2))).flatten

/-- The per-sheet portion of `write_multiple_sheets`: name the fresh
worksheet, write the styled headers and widths, then write every data cell
unformatted. -/
def multi_sheet_actions (config : WriteConfig) : List Action :=
  Action.set_name config.sheet_name :: header_actions config.headers ++
    multi_data_actions config.data

/-- `write_multiple_sheets` from `writer.rs`, as the performed trace plus a
success flag: process the specs in input order, aborting at the first failed
`set_name` (the names already assigned are passed to the validation oracle),
and issue the single `save` only after every spec succeeded. -/
def write_multiple_sheets (name_ok : List String → String → Bool)
    (path : String) (configs : List WriteConfig) : List Action × Bool :=
  go [] configs
where
  /-- Process the remaining specs, given the sheet names already assigned. -/
  go (used : List String) : List WriteConfig → List Action × Bool
    | [] => ([Action.save path], true)
    | config :: rest =>
      if name_ok used config.sheet_name then
        let tail := go (used ++ [config.sheet_name]) rest
        (multi_sheet_actions config ++ tail.1, tail.2)
      else ([], false)

/-! ## Binary codec (`MessagePackConverter` in `messagepack_converter.rs`)

`rmp_serde::to_vec` / `rmp_serde::from_slice` serialize the serde-derived
structures in the compact representation: a struct becomes a MessagePack array
of its fields in declaration order, a `Vec` becomes an array, a `String` a
string, a `u32` an unsigned integer.  The byte-level map/array codec itself
(`rmp`) is a trusted external primitive per the specification, so the codec is
modelled at the level of MessagePack values.  Deserialization into a `u32`
rejects integers outside the `u32` range; `u32Bound` records that range. -/

/-- A MessagePack value, restricted to the shapes this schema produces. -/
inductive MsgPack where
  | uint (n : Nat)
  | str (s : String)
  | arr (items : List MsgPack)

/-- `2^32`, the exclusive upper bound of `u32`. -/
def u32Bound : Nat := 2 ^ 32

/-- Decode a MessagePack value into a `u32`: an unsigned integer in range. -/
def decodeU32 : MsgPack → Option Nat
  | .uint n => if n < u32Bound then some n else none
  | _ => none

/-- Decode a MessagePack value into a `String`. -/
def decodeStr : MsgPack → Option String
  | .str s => some s
  | _ => none

/-- Serialization of `CellData`: the two string fields in declaration order. -/
def CellData.toMsgPack (c : CellData) : MsgPack :=
  .arr [.str c.column_name, .str c.value]

/-- Deserialization of `CellData`: a 2-element array of strings. -/
def CellData.fromMsgPack : MsgPack → Option CellData
  | .arr [a, b] => do
    let column_name ← decodeStr a
    let value ← decodeStr b
    pure { column_name, value }
  | _ => none

/-- Serialization of `RowData`. -/
def RowData.toMsgPack (r : RowData) : MsgPack :=
  .arr [.arr (r.cells.map CellData.toMsgPack), .uint r.row_index]

/-- Deserialization of `RowData`. -/
def RowData.fromMsgPack : MsgPack → Option RowData
  | .arr [a, b] => do
    match a with
    | .arr items =>
      let cells ← items.mapM CellData.fromMsgPack
      let row_index ← decodeU32 b
      pure { cells, row_index }
    | _ => none
  | _ => none

/-- Serialization of `SheetData`: the five fields in declaration order. -/
def SheetData.toMsgPack (s : SheetData) : MsgPack :=
  .arr [.str s.name,
        .arr (s.column_names.map MsgPack.str),
        .arr (s.rows.map RowData.toMsgPack),
        .uint s.total_rows,
        .uint s.total_columns]

/-- Deserialization of `SheetData`. -/
def SheetData.fromMsgPack : MsgPack → Option SheetData
  | .arr [a, b, c, d, e] => do
    let name ← decodeStr a
    match b, c with
    | .arr colItems, .arr rowItems =>
      let column_names ← colItems.mapM decodeStr
      let rows ← rowItems.mapM RowData.fromMsgPack
      let total_rows ← decodeU32 d
      let total_columns ← decodeU32 e
      pure { name, column_names, rows, total_rows, total_columns }
    | _, _ => none
  | _ => none

/-- Serialization of `ExcelData`: a 1-field struct, hence a 1-element array. -/
def ExcelData.toMsgPack (d : ExcelData) : MsgPack :=
  .arr [.arr (d.sheets.map SheetData.toMsgPack)]

/-- Deserialization of `ExcelData`. -/
def ExcelData.fromMsgPack : MsgPack → Option ExcelData
  | .arr [a] =>
    match a with
    | .arr items => (items.mapM SheetData.fromMsgPack).map ExcelData.mk
    | _ => none
  | _ => none

/-- `MessagePackConverter::to_bytes`, up to the trusted byte-level codec. -/
def MessagePackConverter.to_bytes (excel_data : ExcelData) : MsgPack :=
  excel_data.toMsgPack

/-- `MessagePackConverter::from_bytes`, up to the trusted byte-level codec. -/
def MessagePackConverter.from_bytes (m : MsgPack) : Option ExcelData :=
  ExcelData.fromMsgPack m

/-! The Rust structures store `row_index`, `total_rows` and `total_columns` as
`u32`; every value the Rust type can hold is below `2^32`.  The `Nat`-based
model records this as a well-formedness predicate. -/

/-- The numeric field of a `RowData` fits in `u32`. -/
def RowData.WF (r : RowData) : Prop := r.row_index < u32Bound

/-- The numeric fields of a `SheetData` and of all its rows fit in `u32`. -/
def SheetData.WF (s : SheetData) : Prop :=
  s.total_rows < u32Bound ∧ s.total_columns < u32Bound ∧ ∀ r ∈ s.rows, r.WF

/-- Every numeric field of the workbook fits in `u32`. -/
def ExcelData.WF (d : ExcelData) : Prop := ∀ s ∈ d.sheets, s.WF

instance (r : RowData) : Decidable r.WF := by unfold RowData.WF; infer_instance

instance (s : SheetData) : Decidable s.WF := by
  unfold SheetData.WF; infer_instance

instance (d : ExcelData) : Decidable d.WF := by
  unfold ExcelData.WF; infer_instance

/-! ## Round-trip of the binary codec -/

/-- `mapM` of a decoder over an encoded list recovers the list, provided the
decoder inverts the encoder on every element. -/
theorem mapM_map_inverse {α β : Type} {f : α → β} {g : β → Option α}
    (l : List α) (h : ∀ a ∈ l, g (f a) = some a) : (l.map f).mapM g = some l := by
  induction l with
  | nil => rfl
  | cons a as ih =>
    simp only [List.map_cons, List.mapM_cons, h a (List.mem_cons_self a as),
      ih (fun x hx => h x (List.mem_cons_of_mem a hx)), Option.bind_eq_bind,
      Option.some_bind]
    rfl

/-- Decoding inverts encoding on cells. -/
theorem cellData_from_to (c : CellData) :
    CellData.fromMsgPack c.toMsgPack = some c := rfl

/-- Decoding inverts encoding on rows whose index fits in `u32`. -/
theorem rowData_from_to (r : RowData) (h : r.WF) :
    RowData.fromMsgPack r.toMsgPack = some r := by
  have hidx : r.row_index < u32Bound := h
  simp only [RowData.toMsgPack, RowData.fromMsgPack]
  rw [mapM_map_inverse r.cells (fun c _ => cellData_from_to c)]
  simp [decodeU32, hidx]

/-- Decoding inverts encoding on well-formed sheets. -/
theorem sheetData_from_to (s : SheetData) (h : s.WF) :
    SheetData.fromMsgPack s.toMsgPack = some s := by
  obtain ⟨h1, h2, h3⟩ := h
  simp only [SheetData.toMsgPack, SheetData.fromMsgPack]
  rw [mapM_map_inverse (f := MsgPack.str) (g := decodeStr) s.column_names
      (fun c _ => rfl),
    mapM_map_inverse s.rows (fun r hr => rowData_from_to r (h3 r hr))]
  simp [decodeStr, decodeU32, h1, h2]

/-- Decoding inverts encoding on well-formed workbooks. -/
theorem excelData_from_to (d : ExcelData) (h : d.WF) :
    ExcelData.fromMsgPack d.toMsgPack = some d := by
  simp only [ExcelData.toMsgPack, ExcelData.fromMsgPack]
  rw [mapM_map_inverse d.sheets (fun s hs => sheetData_from_to s (h s hs))]
  rfl

/-- **C1.** For every `Workbook` value `W` (any sheets, names, column names,
rows, counts — every value representable in the Rust `ExcelData` type, i.e.
with its `u32` fields in range), decoding the encoding of `W`
(`MessagePackConverter::from_bytes` after `MessagePackConverter::to_bytes`)
succeeds and yields `W` back field-for-field: same sheet order, same row
order, same cell column-name/value pairs, same counts. -/
theorem messagepack_roundtrip (W : ExcelData) (h : W.WF) :
    MessagePackConverter.from_bytes (MessagePackConverter.to_bytes W) = some W :=
  excelData_from_to W h

/-- A concrete workbook exercising the round-trip. -/
def sampleWorkbook : ExcelData :=
  { sheets := [{ name := "Sheet1"
                 column_names := ["ID", "Name", "Age"]
                 rows := [{ cells := [{ column_name := "ID", value := "1" },
                                      { column_name := "Name", value := "AliceAA" },
                                      { column_name := "Age", value := "35" }]
                            row_index := 1 }]
                 total_rows := 1
                 total_columns := 3 }] }

/-- Witness for C1: the round-trip at a concrete workbook. -/
theorem messagepack_roundtrip_witness :
    sampleWorkbook.WF ∧
      MessagePackConverter.from_bytes (MessagePackConverter.to_bytes sampleWorkbook)
        = some sampleWorkbook :=
  ⟨by decide, messagepack_roundtrip sampleWorkbook (by decide)⟩

/-! ## Format resolution -/

/-- **C10.** `create_format_from_string` is total and never fails: for every
input string — the empty string and arbitrary unrecognized patterns included —
it returns `Ok` with a format value, so its error branch is unreachable and
format resolution can never be the cause of a `write_data` failure. -/
theorem create_format_from_string_total (s : String) :
    ∃ f, create_format_from_string s = .ok f :=
  ⟨_, rfl⟩

/-- **C7.** Format resolution is a closed lookup over exactly the five tokens
`"@"`, `"#,##0"`, `"#,##0.00"`, `"yyyy-MM-dd"`, `"yyyy-MM-dd HH:mm:ss"`, each
mapped to its documented cell format (text, thousands-separated integer,
2-decimal number, date, date-time respectively); every other input string is
not an error and is passed through verbatim as a custom numeric-format
pattern. -/
theorem create_format_from_string_lookup :
    create_format_from_string "@" = .ok (Format.new.set_num_format "@") ∧
    create_format_from_string "#,##0" = .ok (Format.new.set_num_format "#,##0") ∧
    create_format_from_string "#,##0.00"
      = .ok (Format.new.set_num_format "#,##0.00") ∧
    create_format_from_string "yyyy-MM-dd"
      = .ok (Format.new.set_num_format "yyyy-mm-dd") ∧
    create_format_from_string "yyyy-MM-dd HH:mm:ss"
      = .ok (Format.new.set_num_format "yyyy-mm-dd hh:mm:ss") ∧
    ∀ s, s ≠ "@" → s ≠ "#,##0" → s ≠ "#,##0.00" → s ≠ "yyyy-MM-dd" →
      s ≠ "yyyy-MM-dd HH:mm:ss" →
      create_format_from_string s = .ok (Format.new.set_num_format s) := by
  refine ⟨rfl, rfl, rfl, rfl, rfl, ?_⟩
  intro s h1 h2 h3 h4 h5
  simp only [create_format_from_string]

/-- Witness for C7: an unrecognized pattern is passed through verbatim. -/
theorem create_format_from_string_lookup_witness :
    create_format_from_string "0.0%" = .ok (Format.new.set_num_format "0.0%") :=
  create_format_from_string_lookup.2.2.2.2.2 "0.0%"
    (by decide) (by decide) (by decide) (by decide) (by decide)

/-! ## Reader: cell construction is `zipWith` against the headers -/

/-- The `filter_map` over an enumerated row, keeping only column positions with
a header entry, is exactly `zipWith` of the remaining headers against the
row. -/
theorem enumFrom_filterMap_headers {α γ : Type} (F : String → α → γ)
    (hs : List String) (row : List α) :
    ∀ n, (row.enumFrom n).filterMap
        (fun q => (hs[q.1]?).map (fun h => F h q.2))
      = List.zipWith F (hs.drop n) row := by
  induction row with
  | nil => intro n; simp
  | cons c cs ih =>
    intro n
    rw [List.enumFrom_cons, List.filterMap_cons]
    cases hn : hs[n]? with
    | none =>
      have hle : hs.length ≤ n := List.getElem?_eq_none_iff.mp hn
      simp only [hn, Option.map_none', ih (n + 1),
        List.drop_eq_nil_of_le hle,
        List.drop_eq_nil_of_le (Nat.le_succ_of_le hle),
        List.zipWith_nil_left]
    | some h =>
      have hlt : n < hs.length := by
        by_contra hge
        rw [List.getElem?_eq_none_iff.mpr (Nat.le_of_not_lt hge)] at hn
        exact Option.noConfusion hn
      have hval : hs[n] = h := by
        have := List.getElem?_eq_getElem hlt
        rw [hn] at this
        exact (Option.some.injEq _ _).mp this.symm
      simp only [hn, Option.map_some', ih (n + 1),
        List.drop_eq_getElem_cons hlt, List.zipWith_cons_cons, hval]

/-- The rows produced by `read_range`, in closed form: the data rows (the tail
of the source grid), each carrying its 1-based index and the `zipWith` of the
headers against the source cells. -/
theorem read_range_rows (toStr : α → String) (name : String) (rg : Range α) :
    (read_range toStr name rg).rows
      = rg.rows.tail.enum.map (fun p =>
          { cells := List.zipWith
              (fun h c => { column_name := h, value := toStr c })
              (headersOf toStr rg) p.2
            row_index := p.1 + 1 }) := by
  simp only [read_range]
  refine List.map_congr_left (fun p _ => ?_)
  have := enumFrom_filterMap_headers
    (fun h c => { column_name := h, value := toStr c : CellData })
    (headersOf toStr rg) p.2 0
  rw [List.drop_zero] at this
  simp only [RowData.mk.injEq]
  exact ⟨this, trivial⟩

/-- **C3.** For every sheet whose header row has length `H`, every data row of
source length `m` produces a `Row` with exactly `min m H` cells: the cell at
column position `p < min m H` gets the header at position `p` as its column
name, and every column position at or beyond `H` is dropped silently — no
cell and no error. -/
theorem ragged_row_truncation (toStr : α → String) (name : String)
    (rg : Range α) (k : Nat) (row : List α)
    (hk : rg.rows.tail[k]? = some row) :
    ∃ r, (read_range toStr name rg).rows[k]? = some r ∧
      r.cells = List.zipWith
        (fun h c => { column_name := h, value := toStr c })
        (headersOf toStr rg) row ∧
      r.cells.length = min row.length (headersOf toStr rg).length ∧
      ∀ p, p < min row.length (headersOf toStr rg).length →
        ∃ cell, r.cells[p]? = some cell ∧
          (headersOf toStr rg)[p]? = some cell.column_name := by
  set hs := headersOf toStr rg with hhs
  refine ⟨{ cells := List.zipWith
              (fun h c => { column_name := h, value := toStr c }) hs row
            row_index := k + 1 }, ?_, rfl, ?_, ?_⟩
  · rw [read_range_rows, List.getElem?_map, List.getElem?_enum, hk]
    rfl
  · rw [List.length_zipWith, Nat.min_comm]
  · intro p hp
    have hpr : p < row.length := Nat.lt_of_lt_of_le hp (Nat.min_le_left _ _)
    have hph : p < hs.length := Nat.lt_of_lt_of_le hp (Nat.min_le_right _ _)
    refine ⟨{ column_name := hs[p], value := toStr row[p] }, ?_, ?_⟩
    · rw [List.getElem?_zipWith', List.getElem?_eq_getElem hph,
        List.getElem?_eq_getElem hpr]
      rfl
    · rw [List.getElem?_eq_getElem hph]

/-- A concrete ragged grid: header of length 3, data rows of lengths 5 and
1. -/
def raggedRange : Range String :=
  { rows := [["ID", "Name", "Age"],
             ["1", "AliceAA", "35", "x", "y"],
             ["2"]]
    width := 5 }

/-- Witness for C3: the length-5 data row yields exactly 3 cells named by the
headers, and the length-1 data row yields exactly 1 cell. -/
theorem ragged_row_truncation_witness :
    (∃ r, (read_range id "Sheet1" raggedRange).rows[0]? = some r ∧
      r.cells = [{ column_name := "ID", value := "1" },
                 { column_name := "Name", value := "AliceAA" },
                 { column_name := "Age", value := "35" }]) ∧
    (∃ r, (read_range id "Sheet1" raggedRange).rows[1]? = some r ∧
      r.cells = [{ column_name := "ID", value := "2" }]) := by
  constructor
  · obtain ⟨r, hr, hcells, -, -⟩ := ragged_row_truncation id "Sheet1" raggedRange
      0 ["1", "AliceAA", "35", "x", "y"] rfl
    exact ⟨r, hr, by rw [hcells]; rfl⟩
  · obtain ⟨r, hr, hcells, -, -⟩ := ragged_row_truncation id "Sheet1" raggedRange
      1 ["2"] rfl
    exact ⟨r, hr, by rw [hcells]; rfl⟩

/-- Per-range form of the row-index property: `read_range` materializes one
`Row` per data row (the tail of the source grid) and numbers them
`1, 2, …, n`. -/
theorem read_range_row_indices (toStr : α → String) (name : String)
    (rg : Range α) :
    (read_range toStr name rg).rows.length = rg.rows.tail.length ∧
    (read_range toStr name rg).rows.map RowData.row_index
      = List.range' 1 rg.rows.tail.length := by
  rw [read_range_rows]
  constructor
  · rw [List.length_map, List.enum_length]
  · rw [List.map_map]
    have : (RowData.row_index ∘ fun p : Nat × List α =>
        ({ cells := List.zipWith
             (fun h c => { column_name := h, value := toStr c })
             (headersOf toStr rg) p.2
           row_index := p.1 + 1 } : RowData))
        = (fun i => i + 1) ∘ Prod.fst := rfl
    rw [this, ← List.map_map, List.enum_map_fst, List.range'_eq_map_range]
    refine List.map_congr_left (fun i _ => Nat.add_comm i 1)

/-! ## Reader: `read_headers` and the `read_data` invariants -/

/-- **C4.** `read_headers` fails with the no-worksheets error exactly when the
opened workbook has zero sheets; otherwise, if the first sheet has zero rows
it returns the empty list successfully (not an error), and if the first sheet
is non-empty it returns the string representation of every cell of the first
row of the first sheet, in column order. -/
theorem read_headers_spec (toStr : α → String) (wb : Xlsx α) :
    (read_headers toStr wb = .error "No worksheets found" ↔ wb.sheets = []) ∧
    (∀ nm rg rest, wb.sheets = (nm, rg) :: rest → rg.rows = [] →
      read_headers toStr wb = .ok []) ∧
    (∀ nm rg rest row rows', wb.sheets = (nm, rg) :: rest →
      rg.rows = row :: rows' →
      read_headers toStr wb = .ok (row.map toStr)) := by
  obtain ⟨sheets⟩ := wb
  cases sheets with
  | nil =>
    refine ⟨by simp [read_headers, Xlsx.sheet_names], ?_, ?_⟩
    · intro nm rg rest h
      exact absurd h (by simp)
    · intro nm rg rest row rows' h
      exact absurd h (by simp)
  | cons first others =>
    obtain ⟨nm₀, rg₀⟩ := first
    have hrange : Xlsx.worksheet_range ⟨(nm₀, rg₀) :: others⟩ nm₀ = some rg₀ := by
      simp [Xlsx.worksheet_range]
    have hval : read_headers toStr ⟨(nm₀, rg₀) :: others⟩
        = .ok (headersOf toStr rg₀) := by
      simp [read_headers, Xlsx.sheet_names, hrange]
    refine ⟨?_, ?_, ?_⟩
    · rw [hval]
      simp
    · intro nm rg rest h hrows
      obtain ⟨h1, h2⟩ := Prod.mk.injEq .. ▸ (List.cons.injEq .. ▸ h).1
      rw [hval, headersOf, h2, hrows]
    · intro nm rg rest row rows' h hrows
      obtain ⟨h1, h2⟩ := Prod.mk.injEq .. ▸ (List.cons.injEq .. ▸ h).1
      rw [hval, headersOf, h2, hrows]

/-- A concrete range for the reader witnesses. -/
def sampleRange : Range String :=
  { rows := [["ID", "Name", "Age"], ["1", "AliceAA", "35"]]
    width := 3 }

/-- A concrete workbook for the reader witnesses. -/
def wbSample : Xlsx String :=
  { sheets := [("Sheet1", sampleRange)] }

/-- A workbook with zero sheets. -/
def wbEmpty : Xlsx String := { sheets := [] }

/-- Witness for C4: the no-worksheets error on the empty workbook, and the
stringified first row on a non-empty one. -/
theorem read_headers_spec_witness :
    read_headers id wbEmpty = .error "No worksheets found" ∧
    read_headers id wbSample = .ok ["ID", "Name", "Age"] := by
  constructor
  · exact (read_headers_spec id wbEmpty).1.mpr rfl
  · have := (read_headers_spec id wbSample).2.2 "Sheet1" sampleRange
      [] ["ID", "Name", "Age"] [["1", "AliceAA", "35"]] rfl rfl
    simpa using this

/-- `Except.map` on an `ok` value. -/
theorem except_map_ok {ε α β : Type} (f : α → β) (a : α) :
    (Except.ok a : Except ε α).map f = .ok (f a) := rfl

/-- `Except.map` on an `error` value. -/
theorem except_map_error {ε α β : Type} (f : α → β) (e : ε) :
    (Except.error e : Except ε α).map f = .error e := rfl

/-- Bind on an `ok` value applies the continuation. -/
theorem except_ok_bind {ε α β : Type} (a : α) (f : α → Except ε β) :
    ((Except.ok a : Except ε α) >>= f) = f a := rfl

/-- Bind on an `error` value short-circuits. -/
theorem except_error_bind {ε α β : Type} (e : ε) (f : α → Except ε β) :
    ((Except.error e : Except ε α) >>= f) = Except.error e := rfl

/-- Membership in the successful result of an `Except`-valued `mapM` comes
from membership in the input. -/
theorem exists_of_mem_mapM_except {α β ε : Type} {f : α → Except ε β} :
    ∀ {l : List α} {ys : List β}, l.mapM f = .ok ys →
      ∀ y ∈ ys, ∃ x ∈ l, f x = .ok y := by
  intro l
  induction l with
  | nil =>
    intro ys h y hy
    simp only [List.mapM_nil] at h
    cases h
    cases hy
  | cons a as ih =>
    intro ys h y hy
    rw [List.mapM_cons] at h
    cases hfa : f a with
    | error e =>
      rw [hfa, except_error_bind] at h
      exact Except.noConfusion h
    | ok b =>
      rw [hfa, except_ok_bind] at h
      cases hms : as.mapM f with
      | error e =>
        rw [hms, except_error_bind] at h
        exact Except.noConfusion h
      | ok bs =>
        rw [hms, except_ok_bind] at h
        have h' : (Except.ok (b :: bs) : Except ε (List β)) = .ok ys := h
        have hys : b :: bs = ys := (Except.ok.injEq _ _).mp h'
        subst hys
        rcases List.mem_cons.mp hy with hy | hy
        · exact ⟨a, List.mem_cons_self a as, hy ▸ hfa⟩
        · obtain ⟨x, hx, hfx⟩ := ih hms y hy
          exact ⟨x, List.mem_cons_of_mem a hx, hfx⟩

/-- Every cell built by the `zipWith` construction takes its column name from
the header list. -/
theorem column_name_mem_of_mem_zipWith {α : Type} (toStr : α → String) :
    ∀ (hs : List String) (row : List α) (c : CellData),
      c ∈ List.zipWith
        (fun h a => { column_name := h, value := toStr a : CellData }) hs row →
      c.column_name ∈ hs := by
  intro hs
  induction hs with
  | nil => intro row c hc; simp at hc
  | cons h hstl ih =>
    intro row c hc
    cases row with
    | nil => simp at hc
    | cons a as =>
      rw [List.zipWith_cons_cons] at hc
      rcases List.mem_cons.mp hc with hc | hc
      · subst hc
        exact List.mem_cons_self _ _
      · exact List.mem_cons_of_mem _ (ih as c hc)

/-- Every sheet in a successful `read_data` result was produced by
`read_range` from a range the workbook holds under the sheet's name. -/
theorem read_data_sheet_from_range (toStr : α → String) (wb : Xlsx α)
    (d : ExcelData) (hd : read_data toStr wb = .ok d) : ∀ s ∈ d.sheets,
    ∃ nm rg, wb.worksheet_range nm = some rg ∧ s = read_range toStr nm rg := by
  intro s hs
  rw [read_data] at hd
  cases hm : wb.sheet_names.mapM (read_sheet toStr wb) with
  | error e =>
    rw [hm, except_map_error] at hd
    exact absurd hd (by simp)
  | ok ys =>
    rw [hm, except_map_ok] at hd
    have hd' : ExcelData.mk ys = d := (Except.ok.injEq _ _).mp hd
    subst hd'
    obtain ⟨nm, -, hsheet⟩ := exists_of_mem_mapM_except hm s hs
    rw [read_sheet] at hsheet
    cases hrg : wb.worksheet_range nm with
    | none => rw [hrg] at hsheet; simp at hsheet
    | some rg =>
      rw [hrg] at hsheet
      simp only [Except.ok.injEq] at hsheet
      exact ⟨nm, rg, hrg, hsheet.symm⟩

/-- **C5.** In every sheet produced by `read_data`, the header (first) row of
the source grid is never materialized as a `Row` — there is exactly one `Row`
per data row, i.e. per row of the source grid's tail — and the `k`-th data
row (1-based, in source order) has `row_index` exactly `k`: the indices are
`1, 2, …, n`, 1-based, consecutive and ascending. -/
theorem row_index_one_based (toStr : α → String) (wb : Xlsx α)
    (d : ExcelData) (hd : read_data toStr wb = .ok d) : ∀ s ∈ d.sheets,
    ∃ rg, wb.worksheet_range s.name = some rg ∧
      s.rows.length = rg.rows.tail.length ∧
      s.rows.map RowData.row_index = List.range' 1 rg.rows.tail.length := by
  intro s hs
  obtain ⟨nm, rg, hrg, hrange⟩ := read_data_sheet_from_range toStr wb d hd s hs
  subst hrange
  exact ⟨rg, hrg, (read_range_row_indices toStr nm rg).1,
    (read_range_row_indices toStr nm rg).2⟩

/-- Witness for C5: the row indices at a concrete workbook. -/
theorem row_index_one_based_witness :
    ∃ d, read_data id wbSample = .ok d ∧ ∀ s ∈ d.sheets,
      ∃ rg, wbSample.worksheet_range s.name = some rg ∧
        s.rows.length = rg.rows.tail.length ∧
        s.rows.map RowData.row_index = List.range' 1 rg.rows.tail.length :=
  ⟨_, rfl, row_index_one_based id wbSample _ rfl⟩

/-- **C6.** Every sheet produced by `read_data` satisfies the data-model
invariant: `total_rows` equals the length of its `rows`, `total_columns`
equals the width reported for the source range the sheet was read from, and
every cell's `column_name` is one of the header strings captured in the
owning sheet's `column_names`. -/
theorem read_data_invariants (toStr : α → String) (wb : Xlsx α)
    (d : ExcelData) (hd : read_data toStr wb = .ok d) : ∀ s ∈ d.sheets,
    s.total_rows = s.rows.length ∧
    (∃ rg, wb.worksheet_range s.name = some rg ∧ s.total_columns = rg.width) ∧
    ∀ r ∈ s.rows, ∀ c ∈ r.cells, c.column_name ∈ s.column_names := by
  intro s hs
  obtain ⟨nm, rg, hrg, hrange⟩ := read_data_sheet_from_range toStr wb d hd s hs
  subst hrange
  refine ⟨rfl, ⟨rg, hrg, rfl⟩, ?_⟩
  intro r hr c hc
  rw [read_range_rows] at hr
  obtain ⟨p, -, hp⟩ := List.mem_map.mp hr
  subst hp
  exact column_name_mem_of_mem_zipWith toStr _ _ c hc

/-- Witness for C6: the invariants at a concrete workbook. -/
theorem read_data_invariants_witness :
    ∃ d, read_data id wbSample = .ok d ∧ ∃ s, s ∈ d.sheets ∧
      s.total_rows = s.rows.length ∧
      (∃ rg, wbSample.worksheet_range s.name = some rg ∧
        s.total_columns = rg.width) ∧
      ∀ r ∈ s.rows, ∀ c ∈ r.cells, c.column_name ∈ s.column_names := by
  refine ⟨ExcelData.mk [read_range id "Sheet1" sampleRange], rfl,
    read_range id "Sheet1" sampleRange, List.mem_singleton.mpr rfl, ?_⟩
  exact read_data_invariants id wbSample _ rfl _ (List.mem_singleton.mpr rfl)

/-! ## Writer: data-cell resolution in closed form -/

/-- The format value `create_format_from_string` returns — it never fails, so
this is total. -/
def resolved_format (format_str : String) : Format :=
  match create_format_from_string format_str with
  | .ok f => f
  | .error _ => Format.new

/-- `create_format_from_string` in terms of its resolved value. -/
theorem create_format_from_string_eq (s : String) :
    create_format_from_string s = .ok (resolved_format s) := rfl

/-- The action `data_cell_action` produces, in closed form. -/
def data_cell_resolved (headers : List HeaderConfig) (row_idx col_idx : Nat)
    (cell_value : String) : Action :=
  match (headers[col_idx]?).bind (fun h => h.format) with
  | some format_str =>
    Action.write_with_format (row_idx + 1) col_idx cell_value
      (resolved_format format_str)
  | none => Action.write (row_idx + 1) col_idx cell_value

/-- `data_cell_action` never fails and returns the resolved action. -/
theorem data_cell_action_eq (headers : List HeaderConfig) (r c : Nat)
    (v : String) :
    data_cell_action headers r c v = .ok (data_cell_resolved headers r c v) := by
  unfold data_cell_action data_cell_resolved
  cases (headers[c]?).bind (fun h => h.format) with
  | none => rfl
  | some fs => rfl

/-- `mapM` of a function that never fails is the `map` of its values. -/
theorem mapM_eq_ok_map {α β ε : Type} {f : α → Except ε β} {g : α → β}
    (hfg : ∀ a, f a = .ok (g a)) : ∀ (l : List α), l.mapM f = .ok (l.map g) := by
  intro l
  induction l with
  | nil => rfl
  | cons a as ih =>
    rw [List.mapM_cons, hfg a, except_ok_bind, ih]
    rfl

/-- `data_actions` never fails; its value is the flattened grid of resolved
cell actions. -/
theorem data_actions_eq (headers : List HeaderConfig)
    (data : List (List String)) :
    data_actions headers data
      = .ok ((data.enum.map (fun p =>
          p.2.enum.map (fun q =>
            data_cell_resolved headers p.1 q.1 q.2))).flatten) := by
  unfold data_actions
  rw [mapM_eq_ok_map (fun p =>
    mapM_eq_ok_map (fun q => data_cell_action_eq headers p.1 q.1 q.2) p.2.enum)
    data.enum]
  rfl

/-- **C8.** In `write_data`, every data cell at a column index at or beyond
`headers.length` is still written — the format lookup yields no format, so the
cell is written with the unformatted `write` call — and the extra width causes
no error (`data_actions` succeeds). -/
theorem extra_columns_written (headers : List HeaderConfig)
    (data : List (List String)) (row_idx : Nat) (row : List String)
    (hr : data[row_idx]? = some row) (col_idx : Nat) (cell : String)
    (hc : row[col_idx]? = some cell) (hcol : headers.length ≤ col_idx) :
    ∃ acts, data_actions headers data = .ok acts ∧
      Action.write (row_idx + 1) col_idx cell ∈ acts := by
  refine ⟨_, data_actions_eq headers data, ?_⟩
  rw [List.mem_flatten]
  refine ⟨row.enum.map (fun q => data_cell_resolved headers row_idx q.1 q.2),
    List.mem_map.mpr ⟨(row_idx, row), List.mem_enum_iff_getElem?.mpr hr, rfl⟩,
    ?_⟩
  refine List.mem_map.mpr ⟨(col_idx, cell),
    List.mem_enum_iff_getElem?.mpr hc, ?_⟩
  unfold data_cell_resolved
  rw [List.getElem?_eq_none hcol]
  rfl

/-- Headers used by the C8 witness: one formatted column. -/
def oneColHeaders : List HeaderConfig :=
  [{ name := "A", width := none, format := some "#,##0" }]

/-- Witness for C8: a 2-wide data row under a 1-wide header list still writes
the second cell, unformatted. -/
theorem extra_columns_written_witness :
    ∃ acts, data_actions oneColHeaders [["1", "2"]] = .ok acts ∧
      Action.write 1 1 "2" ∈ acts :=
  extra_columns_written oneColHeaders [["1", "2"]] 0 ["1", "2"] rfl 1 "2" rfl
    (by decide)

/-! ## Writer: `write_multiple_sheets` versus `write_data` -/

/-- Erase the cell format from the data-cell writes (rows `≥ 1`), leaving the
header writes (row `0`) and every other workbook call unchanged. -/
def erase_data_format (a : Action) : Action :=
  match a with
  | .write_with_format row col v f =>
    if row = 0 then .write_with_format row col v f else .write row col v
  | a => a

/-- `erase_data_format` fixes the header actions. -/
theorem erase_data_format_header_actions (headers : List HeaderConfig) :
    (header_actions headers).map erase_data_format = header_actions headers := by
  unfold header_actions
  rw [List.map_flatten, List.map_map]
  congr 1
  refine List.map_congr_left (fun p _ => ?_)
  simp only [Function.comp_apply]
  cases p.2.width <;> rfl

/-- Mapping `erase_data_format` over `write_data`'s data actions yields the
plain writes of `write_multiple_sheets`'s data loop. -/
theorem erase_data_format_data_actions (headers : List HeaderConfig)
    (data : List (List String)) :
    ((data.enum.map (fun p => p.2.enum.map
        (fun q => data_cell_resolved headers p.1 q.1 q.2))).flatten).map
        erase_data_format
      = multi_data_actions data := by
  unfold multi_data_actions
  rw [List.map_flatten, List.map_map]
  congr 1
  refine List.map_congr_left (fun p _ => ?_)
  simp only [Function.comp_apply, List.map_map]
  refine List.map_congr_left (fun q _ => ?_)
  simp only [Function.comp_apply]
  unfold data_cell_resolved erase_data_format
  cases (headers[q.1]?).bind (fun h => h.format) with
  | none => rfl
  | some fs => simp [Nat.succ_ne_zero]

/-- **C2 (amended).** `write_multiple_sheets` applies the same sheet-naming
and header logic to each spec as `write_data`, but writes every data cell
unformatted, ignoring the header format strings: the per-sheet trace it issues
for a spec (followed by the final save) is exactly `write_data`'s trace for
that spec with every formatted data-cell write replaced by a plain write. -/
theorem write_multiple_sheets_unformats_data
    (name_ok : List String → String → Bool) (path : String)
    (config : WriteConfig) (acts : List Action)
    (h : write_data name_ok path config = .ok acts) :
    multi_sheet_actions config ++ [Action.save path]
        = acts.map erase_data_format ∧
    write_multiple_sheets name_ok path [config]
        = (acts.map erase_data_format, true) := by
  rw [write_data] at h
  cases hok : name_ok [] config.sheet_name with
  | false => rw [hok, if_neg Bool.false_ne_true] at h; exact absurd h (by simp)
  | true =>
    rw [hok, if_pos rfl, data_actions_eq, except_map_ok] at h
    have hacts : Action.set_name config.sheet_name ::
        header_actions config.headers ++
        ((config.data.enum.map (fun p => p.2.enum.map
          (fun q => data_cell_resolved config.headers p.1 q.1 q.2))).flatten) ++
        [Action.save path] = acts := (Except.ok.injEq _ _).mp h
    subst hacts
    have hmap : (Action.set_name config.sheet_name ::
        header_actions config.headers ++
        ((config.data.enum.map (fun p => p.2.enum.map
          (fun q => data_cell_resolved config.headers p.1 q.1 q.2))).flatten) ++
        [Action.save path]).map erase_data_format
          = multi_sheet_actions config ++ [Action.save path] := by
      rw [List.map_append, List.map_append, List.map_cons,
        erase_data_format_header_actions, erase_data_format_data_actions,
        multi_sheet_actions]
      rfl
    refine ⟨hmap.symm, ?_⟩
    rw [hmap]
    simp only [write_multiple_sheets, write_multiple_sheets.go, hok, if_pos]

/-- A spec with a formatted column, for the C2 counterexample and witness. -/
def fmtConfig : WriteConfig :=
  { sheet_name := "S"
    headers := [{ name := "A", width := none, format := some "#,##0.00" }]
    data := [["5"]] }

/-- A validation oracle accepting every sheet name. -/
def accept_all : List String → String → Bool := fun _ _ => true

/-- **C2 (counterexample).** The claim fails on the code: for the spec
`fmtConfig`, whose single column carries the format string `"#,##0.00"`,
`write_data` writes the data cell with the resolved cell format, but
`write_multiple_sheets` writes the same cell with the plain unformatted
`write` call — not the formatted write the claim requires. -/
theorem write_multiple_sheets_formats_counterexample :
    write_data accept_all "out.xlsx" fmtConfig
      = .ok [Action.set_name "S",
             Action.write_with_format 0 0 "A" header_style,
             Action.write_with_format 1 0 "5"
               (Format.new.set_num_format "#,##0.00"),
             Action.save "out.xlsx"] ∧
    Action.write 1 0 "5"
      ∈ (write_multiple_sheets accept_all "out.xlsx" [fmtConfig]).1 ∧
    Action.write_with_format 1 0 "5" (Format.new.set_num_format "#,##0.00")
      ∉ (write_multiple_sheets accept_all "out.xlsx" [fmtConfig]).1 := by
  refine ⟨rfl, ?_, ?_⟩ <;> decide

/-- Witness for the amended C2 at the concrete spec `fmtConfig`. -/
theorem write_multiple_sheets_unformats_data_witness :
    multi_sheet_actions fmtConfig ++ [Action.save "out.xlsx"]
      = ([Action.set_name "S",
          Action.write_with_format 0 0 "A" header_style,
          Action.write_with_format 1 0 "5"
            (Format.new.set_num_format "#,##0.00"),
          Action.save "out.xlsx"].map erase_data_format) :=
  (write_multiple_sheets_unformats_data accept_all "out.xlsx" fmtConfig _ rfl).1

/-! ## Writer: multi-sheet atomicity -/

/-- No header action is a save. -/
theorem save_not_in_header_actions (headers : List HeaderConfig) (p : String) :
    Action.save p ∉ header_actions headers := by
  intro hmem
  rw [header_actions, List.mem_flatten] at hmem
  obtain ⟨l, hl, hal⟩ := hmem
  obtain ⟨q, -, rfl⟩ := List.mem_map.mp hl
  rcases List.mem_cons.mp hal with h | h
  · exact Action.noConfusion h
  · cases hw : q.2.width <;> rw [hw] at h <;> simp at h

/-- No plain data write is a save. -/
theorem save_not_in_multi_data_actions (data : List (List String))
    (p : String) : Action.save p ∉ multi_data_actions data := by
  intro hmem
  rw [multi_data_actions, List.mem_flatten] at hmem
  obtain ⟨l, hl, hal⟩ := hmem
  obtain ⟨q, -, rfl⟩ := List.mem_map.mp hl
  obtain ⟨r, -, hr⟩ := List.mem_map.mp hal
  exact Action.noConfusion hr

/-- The per-sheet portion of `write_multiple_sheets` never saves. -/
theorem save_not_in_multi_sheet_actions (config : WriteConfig) (p : String) :
    Action.save p ∉ multi_sheet_actions config := by
  intro hmem
  rw [multi_sheet_actions] at hmem
  rcases List.mem_append.mp hmem with h | h
  · rcases List.mem_cons.mp h with h | h
    · exact Action.noConfusion h
    · exact save_not_in_header_actions _ p h
  · exact save_not_in_multi_data_actions _ p h

/-- The loop of `write_multiple_sheets`: when it reports failure, it has
issued no save. -/
theorem go_no_save_of_failure (name_ok : List String → String → Bool)
    (path : String) : ∀ (configs : List WriteConfig) (used : List String),
    (write_multiple_sheets.go name_ok path used configs).2 = false →
    ∀ p, Action.save p ∉ (write_multiple_sheets.go name_ok path used configs).1 := by
  intro configs
  induction configs with
  | nil =>
    intro used h
    simp [write_multiple_sheets.go] at h
  | cons config rest ih =>
    intro used h p
    simp only [write_multiple_sheets.go] at h ⊢
    cases hok : name_ok used config.sheet_name with
    | false => simp
    | true =>
      rw [hok, if_pos rfl] at h
      rw [if_pos rfl]
      intro hmem
      rcases List.mem_append.mp hmem with hm | hm
      · exact save_not_in_multi_sheet_actions config p hm
      · exact ih (used ++ [config.sheet_name]) h p hm

/-- **C9.** `write_multiple_sheets` is atomic with respect to the target
file: if processing any spec fails (for example an invalid or duplicate sheet
name, as judged by the codec's validation), the save step is never reached —
the trace of issued workbook calls contains no `save`, and since only `save`
touches the target file, the file is left unchanged and none is created. -/
theorem write_multiple_sheets_atomic (name_ok : List String → String → Bool)
    (path : String) (configs : List WriteConfig)
    (h : (write_multiple_sheets name_ok path configs).2 = false) :
    ∀ p, Action.save p ∉ (write_multiple_sheets name_ok path configs).1 :=
  go_no_save_of_failure name_ok path configs [] h

/-- A validation oracle rejecting the empty sheet name. -/
def reject_empty_name : List String → String → Bool := fun _ n => !(n == "")

/-- A spec whose sheet name fails validation. -/
def emptyNameConfig : WriteConfig :=
  { sheet_name := "", headers := [], data := [] }

/-- Witness for C9: with a failing second spec, the run fails and no save is
issued. -/
theorem write_multiple_sheets_atomic_witness :
    (write_multiple_sheets reject_empty_name "out.xlsx"
      [fmtConfig, emptyNameConfig, fmtConfig]).2 = false ∧
    Action.save "out.xlsx" ∉ (write_multiple_sheets reject_empty_name "out.xlsx"
      [fmtConfig, emptyNameConfig, fmtConfig]).1 :=
  ⟨by decide, write_multiple_sheets_atomic reject_empty_name "out.xlsx"
    [fmtConfig, emptyNameConfig, fmtConfig] (by decide) "out.xlsx"⟩

end ExcelParserModel
